import Mathlib

/-!
# Secret-access validating webhook: embedding of `pkg/webhook/server.go`

A shallow embedding of the decision logic of the admission webhook
(`getSecretsFromPodSpec`, `getSecret`, `isControllerUser`,
`validateSecretAccess`, `serve`) together with the properties stated for it.

Modelling conventions.

* Go strings are Lean `String`s (sequences of Unicode scalar values); all
  strings the code handles come out of a JSON decoder, which only produces
  valid UTF-8.
* A Go `error` is the text of its `Error()` method; `nil` is `none`.
* A nil pointer is `none`; dereferencing it is a run-time panic, rendered as the
  result `none` of the function in which it happens.
* Collaborators outside the repository (`rest.InClusterConfig`,
  `kubernetes.NewForConfig`, the SubjectAccessReview client, `json.Unmarshal`,
  the envelope deserializer, the Unicode table behind `strconv.IsPrint`) are
  fields of `Env` / `Clientset`.  The SubjectAccessReview client is stateful:
  it threads a state of an arbitrary type `σ`, so that its answers may depend on
  everything asked before.
* Every call that leaves the process is recorded, in order, in a list of
  `Call`s.
-/

namespace Webhook

/-! ## Data model (the fields the code reads) -/

/-- The type `metav1.GroupVersionKind`. -/
structure GroupVersionKind where
  Group : String
  Version : String
  Kind : String
deriving DecidableEq, Repr

/-- The type `authenticationv1.UserInfo`; only `Username` is read. -/
structure UserInfo where
  Username : String
deriving DecidableEq, Repr

/-- The type `runtime.RawExtension`: the raw bytes of the object under review. -/
structure RawExtension where
  Raw : List Nat
deriving DecidableEq, Repr

/-- The type `admissionv1.AdmissionRequest`. -/
structure AdmissionRequest where
  UID : String
  Kind : GroupVersionKind
  Namespace : String
  UserInfo : Webhook.UserInfo
  Object : RawExtension
deriving DecidableEq, Repr

/-- The type `metav1.Status`; only `Message` is written. -/
structure Status where
  Message : String
deriving DecidableEq, Repr

/-- The type `admissionv1.AdmissionResponse`. -/
structure AdmissionResponse where
  UID : String
  Allowed : Bool
  Result : Option Status
deriving DecidableEq, Repr

/-- The type `admissionv1.AdmissionReview`: `TypeMeta`, and the two pointers
`Request` and `Response`. -/
structure AdmissionReview where
  Kind : String
  APIVersion : String
  Request : Option AdmissionRequest
  Response : Option AdmissionResponse
deriving DecidableEq, Repr

/-- The type `corev1.SecretVolumeSource`. -/
structure SecretVolumeSource where
  SecretName : String
deriving DecidableEq, Repr

/-- The type `corev1.Volume`; `Secret` is a pointer. -/
structure Volume where
  Name : String
  Secret : Option SecretVolumeSource
deriving DecidableEq, Repr

/-- The type `corev1.SecretEnvSource` (its embedded `LocalObjectReference.Name`). -/
structure SecretEnvSource where
  Name : String
deriving DecidableEq, Repr

/-- The type `corev1.EnvFromSource`; `SecretRef` is a pointer. -/
structure EnvFromSource where
  SecretRef : Option SecretEnvSource
deriving DecidableEq, Repr

/-- The type `corev1.SecretKeySelector`. -/
structure SecretKeySelector where
  Name : String
  Key : String
deriving DecidableEq, Repr

/-- The type `corev1.EnvVarSource`; `SecretKeyRef` is a pointer. -/
structure EnvVarSource where
  SecretKeyRef : Option SecretKeySelector
deriving DecidableEq, Repr

/-- The type `corev1.EnvVar`; `ValueFrom` is a pointer. -/
structure EnvVar where
  Name : String
  ValueFrom : Option EnvVarSource
deriving DecidableEq, Repr

/-- The type `corev1.Container`. -/
structure Container where
  Name : String
  EnvFrom : List EnvFromSource
  Env : List EnvVar
deriving DecidableEq, Repr

/-- The type `corev1.PodSpec`. -/
structure PodSpec where
  Volumes : List Volume
  Containers : List Container
deriving DecidableEq, Repr

/-- The type `corev1.Pod`. -/
structure Pod where
  Spec : PodSpec
deriving DecidableEq, Repr

/-- The type `authzv1.ResourceAttributes`. -/
structure ResourceAttributes where
  Verb : String
  Resource : String
  Name : String
  Namespace : String
deriving DecidableEq, Repr

/-- The type `authzv1.SubjectAccessReview` (its `Spec`). -/
structure SubjectAccessReview where
  ResourceAttributes : Webhook.ResourceAttributes
  User : String
deriving DecidableEq, Repr

/-- What `auth.Create` hands back: a transport error, or `Status.Allowed`. -/
inductive Answer where
  | failed (err : String)
  | status (allowed : Bool)
deriving DecidableEq, Repr

/-- A call that leaves the process. -/
inductive Call where
  | inClusterConfig
  | newForConfig
  | create (sar : SubjectAccessReview) (answer : Answer)
deriving DecidableEq, Repr

/-- The client returned by `kubernetes.NewForConfig`:
`AuthorizationV1().SubjectAccessReviews().Create`, threading the state of the
authorization oracle. -/
structure Clientset (σ : Type) where
  create : σ → SubjectAccessReview → Answer × σ

/-- The collaborators of the webhook that live outside the repository. -/
structure Env (σ : Type) where
  /-- Table of `unicode.IsPrint` for runes above U+00FF. -/
  isPrintTable : Char → Bool
  /-- Result of `rest.InClusterConfig()`: an error, or a config (opaque). -/
  inClusterConfig : Except String Unit
  /-- Result of `kubernetes.NewForConfig(config)`. -/
  newForConfig : Except String (Clientset σ)
  /-- Result of `json.Unmarshal(raw, &pod)` for `pod : *corev1.Pod`: an error, or
  the pointer afterwards, which is nil when the payload is the literal `null`. -/
  unmarshalPod : List Nat → Except String (Option Pod)
  /-- Result of `deserializer.Decode(body, nil, &review)`. -/
  decodeReview : List Nat → Except String AdmissionReview

/-- What `validateSecretAccess` returns, with the calls it made and the state in
which it left the oracle. -/
structure Run (σ : Type) where
  resp : AdmissionResponse
  err : Option String
  calls : List Call
  st : σ

/-! ## Formatting verbs of `fmt` -/

/-- The table `lowerhex` of `strconv`. -/
def lowerhex (n : Nat) : Char :=
  "0123456789abcdef".data.getD n '0'

/-- The function `strconv.IsPrint`: decided by range up to U+00FF, by table above. -/
def isPrint (tbl : Char → Bool) (r : Char) : Bool :=
  if r.toNat ≤ 0xFF then
    if 0x20 ≤ r.toNat && r.toNat ≤ 0x7E then true
    else if 0xA1 ≤ r.toNat && r.toNat ≤ 0xFF then r.toNat != 0xAD
    else false
  else tbl r

/-- The function `appendEscapedRune` of `strconv` for the quote `"`, neither
ASCII-only nor graphic-only: the text appended for one rune. -/
def appendEscapedRune (tbl : Char → Bool) (r : Char) : List Char :=
  if r.toNat = 0x22 || r.toNat = 0x5C then [Char.ofNat 0x5C, r]
  else if isPrint tbl r then [r]
  else if r.toNat = 0x07 then [Char.ofNat 0x5C, 'a']
  else if r.toNat = 0x08 then [Char.ofNat 0x5C, 'b']
  else if r.toNat = 0x0C then [Char.ofNat 0x5C, 'f']
  else if r.toNat = 0x0A then [Char.ofNat 0x5C, 'n']
  else if r.toNat = 0x0D then [Char.ofNat 0x5C, 'r']
  else if r.toNat = 0x09 then [Char.ofNat 0x5C, 't']
  else if r.toNat = 0x0B then [Char.ofNat 0x5C, 'v']
  else if r.toNat < 0x20 || r.toNat = 0x7F then
    [Char.ofNat 0x5C, 'x', lowerhex (r.toNat / 16 % 16), lowerhex (r.toNat % 16)]
  else if r.toNat < 0x10000 then
    Char.ofNat 0x5C :: 'u' :: [12, 8, 4, 0].map (fun s => lowerhex (r.toNat / 2 ^ s % 16))
  else
    Char.ofNat 0x5C :: 'U' ::
      [28, 24, 20, 16, 12, 8, 4, 0].map (fun s => lowerhex (r.toNat / 2 ^ s % 16))

/-- The function `strconv.Quote`, which is what the verb `%q` (and `%#v` on a
string) prints. -/
def quote (tbl : Char → Bool) (s : String) : String :=
  ⟨Char.ofNat 0x22 :: (s.data.flatMap (appendEscapedRune tbl) ++ [Char.ofNat 0x22])⟩

/-- The method `GroupVersionKind.String` of apimachinery, used by `%q`. -/
def GroupVersionKind.toText (gvk : GroupVersionKind) : String :=
  gvk.Group ++ "/" ++ gvk.Version ++ ", Kind=" ++ gvk.Kind

/-- The verb `%#v` on a `metav1.GroupVersionKind`: Go syntax of the struct. -/
def GroupVersionKind.goSyntax (tbl : Char → Bool) (gvk : GroupVersionKind) : String :=
  "v1.GroupVersionKind\x7bGroup:" ++ quote tbl gvk.Group ++ ", Version:" ++
    quote tbl gvk.Version ++ ", Kind:" ++ quote tbl gvk.Kind ++ "\x7d"

/-! ## The functions of `server.go` -/

/-- The function `getSecretsFromPodSpec`: the three loops, each appending to `ret`. -/
def getSecretsFromPodSpec (podSpec : PodSpec) : List String :=
  let ret : List String := []
  let ret := podSpec.Volumes.foldl
    (fun ret vol =>
      match vol.Secret with
      | some src => ret ++ [src.SecretName]
      | none => ret)
    ret
  let ret := podSpec.Containers.foldl
    (fun ret cnt =>
      let ret := cnt.EnvFrom.foldl
        (fun ret env =>
          match env.SecretRef with
          | some ref => ret ++ [ref.Name]
          | none => ret)
        ret
      cnt.Env.foldl
        (fun ret env =>
          match env.ValueFrom with
          | none => ret
          | some src =>
            match src.SecretKeyRef with
            | none => ret
            | some sel => ret ++ [sel.Name])
        ret)
    ret
  ret

/-- The map literal `users` of `isControllerUser`: its keys, each bound to nil. -/
def users : List (String × Unit) :=
  [ ("system:serviceaccount:kube-system:cronjob-controller", ()),
    ("system:serviceaccount:kube-system:daemon-set-controller", ()),
    ("system:serviceaccount:kube-system:deployment-controller", ()),
    ("system:serviceaccount:kube-system:job-controller", ()),
    ("system:serviceaccount:kube-system:replicaset-controller", ()),
    ("system:serviceaccount:kube-system:replication-controller", ()),
    ("system:serviceaccount:kube-system:statefulset-controller", ()) ]

/-- The function `isControllerUser`: the lookup `_, ok := users[u]`. -/
def isControllerUser (u : String) : Bool :=
  match users.lookup u with
  | some _ => true
  | none => false

/-- The function `getSecret`.  The outer `none` is the panic of `pod.Spec` on
a pod pointer that `json.Unmarshal` has set to nil. -/
def getSecret {σ : Type} (env : Env σ) (req : AdmissionRequest) :
    Option (Except String (List String)) :=
  if req.Kind.Kind = "Pod" ∧ req.Kind.Version = "v1" then
    match env.unmarshalPod req.Object.Raw with
    | .error e =>
      some (.error ("unmarshalling request object of type: " ++
        quote env.isPrintTable req.Kind.toText ++ ": " ++ e))
    | .ok none => none
    | .ok (some pod) => some (.ok (getSecretsFromPodSpec pod.Spec))
  else
    some (.error ("unsupported kind received: " ++ req.Kind.goSyntax env.isPrintTable))

/-- The review built in the body of the loop of `validateSecretAccess`. -/
def mkSar (req : AdmissionRequest) (secret : String) : SubjectAccessReview :=
  { ResourceAttributes :=
      { Verb := "get", Resource := "secrets", Name := secret, Namespace := req.Namespace },
    User := req.UserInfo.Username }

/-- The error of the denial branch:
`User %q does not have access to the secret %q in the namespace %q.` -/
def denialMessage (tbl : Char → Bool) (user secret ns : String) : String :=
  "User " ++ quote tbl user ++ " does not have access to the secret " ++ quote tbl secret ++
    " in the namespace " ++ quote tbl ns ++ "."

/-- The loop `for _, secret := range secrets` of `validateSecretAccess`: the error
it returns early with (`none` when it runs to its end), the calls made and the
final state of the oracle. -/
def authLoop {σ : Type} (tbl : Char → Bool) (cs : Clientset σ) (req : AdmissionRequest) :
    List String → σ → Option String × List Call × σ
  | [], s => (none, [], s)
  | secret :: rest, s =>
    let sar := mkSar req secret
    match cs.create s sar with
    | (.failed e, s1) => (some ("checking permissions: " ++ e), [.create sar (.failed e)], s1)
    | (.status allowed, s1) =>
      if !allowed then
        (some (denialMessage tbl req.UserInfo.Username secret req.Namespace),
          [.create sar (.status allowed)], s1)
      else
        let r := authLoop tbl cs req rest s1
        (r.1, .create sar (.status allowed) :: r.2.1, r.2.2)

/-- The function `validateSecretAccess`.  The result `none` is a nil-pointer
panic: of `req.UID` when `r.Request` is nil, or the one of `getSecret`. -/
def validateSecretAccess {σ : Type} (env : Env σ) (s : σ) (r : AdmissionReview) :
    Option (Run σ) :=
  match r.Request with
  | none => none
  | some req =>
    let response : AdmissionResponse := { UID := req.UID, Allowed := false, Result := none }
    let user := req.UserInfo
    if isControllerUser user.Username then
      some ⟨{ response with Allowed := true }, none, [], s⟩
    else
      match env.inClusterConfig with
      | .error e => some ⟨response, some ("reading incluster config: " ++ e), [.inClusterConfig], s⟩
      | .ok _ =>
        match env.newForConfig with
        | .error e =>
          some ⟨response, some ("creating clientset: " ++ e), [.inClusterConfig, .newForConfig], s⟩
        | .ok clientset =>
          match getSecret env req with
          | none => none
          | some (.error e) =>
            some ⟨response, some ("getting secrets: " ++ e), [.inClusterConfig, .newForConfig], s⟩
          | some (.ok secrets) =>
            match authLoop env.isPrintTable clientset req secrets s with
            | (some e, calls, s1) =>
              some ⟨response, some e, .inClusterConfig :: .newForConfig :: calls, s1⟩
            | (none, calls, s1) =>
              some ⟨{ response with Allowed := true }, none,
                .inClusterConfig :: .newForConfig :: calls, s1⟩

/-- The function `returnError`. -/
def returnError (err : String) : AdmissionResponse :=
  { UID := "", Allowed := false, Result := some { Message := err } }

/-- The function `serve`, from the result of `ioutil.ReadAll(r.Body)` on.  The
result `none` is a panic of `validateSecretAccess`, which the HTTP server turns
into a closed connection: no review is written. -/
def serve {σ : Type} (env : Env σ) (s : σ) (body : Except String (List Nat)) :
    Option (AdmissionReview × List Call × σ) :=
  let response : AdmissionReview :=
    { Kind := "AdmissionReview", APIVersion := "admission.k8s.io/v1",
      Request := none, Response := none }
  match body with
  | .error e =>
    some ({ response with Response := some (returnError ("reading request body: " ++ e)) }, [], s)
  | .ok bytes =>
    match env.decodeReview bytes with
    | .error e =>
      some ({ response with Response := some (returnError ("decoding request: " ++ e)) }, [], s)
    | .ok requestedAdmissionReview =>
      match validateSecretAccess env s requestedAdmissionReview with
      | none => none
      | some run =>
        match run.err with
        | some e =>
          some ({ response with
            Response := some { run.resp with Result := some { Message := e } } }, run.calls, run.st)
        | none => some ({ response with Response := some run.resp }, run.calls, run.st)

/-! ## Vocabulary of the properties -/

/-- The answers the oracle gives to a sequence of queries asked one after the
other from state `s`. -/
def oracleAnswers {σ : Type} (cs : Clientset σ) : σ → List SubjectAccessReview → List Answer
  | _, [] => []
  | s, q :: qs => (cs.create s q).1 :: oracleAnswers cs (cs.create s q).2 qs

/-- The oracle queries among a sequence of calls, in order. -/
def oracleQueries : List Call → List SubjectAccessReview
  | [] => []
  | .create sar _ :: calls => sar :: oracleQueries calls
  | .inClusterConfig :: calls => oracleQueries calls
  | .newForConfig :: calls => oracleQueries calls

/-- Reference definition of extraction, following the wording of the
specification: volume secrets in volume order, then per container its envFrom
secret names followed by its env secret-key names. -/
def extractSpec (ps : PodSpec) : List String :=
  ps.Volumes.filterMap (fun v => v.Secret.map (fun src => src.SecretName)) ++
    ps.Containers.flatMap (fun c =>
      c.EnvFrom.filterMap (fun e => e.SecretRef.map (fun ref => ref.Name)) ++
        c.Env.filterMap (fun e =>
          (e.ValueFrom.bind (fun src => src.SecretKeyRef)).map (fun sel => sel.Name)))

/-- Number of set secret references of a pod spec. -/
def countSetRefs (ps : PodSpec) : Nat :=
  ps.Volumes.countP (fun v => v.Secret.isSome) +
    (ps.Containers.map (fun c =>
      c.EnvFrom.countP (fun e => e.SecretRef.isSome) +
        c.Env.countP (fun e =>
          match e.ValueFrom with
          | none => false
          | some src => src.SecretKeyRef.isSome))).sum

/-- The error with which `validateSecretAccess` rejects a kind it does not
support: the error of `getSecret` wrapped by `getting secrets: %w`. -/
def unsupportedKindError (tbl : Char → Bool) (gvk : GroupVersionKind) : String :=
  "getting secrets: " ++ ("unsupported kind received: " ++ gvk.goSyntax tbl)

/-- A rune that `%q` prints as itself: printable, and neither `"` nor `\`. -/
def plainRune (tbl : Char → Bool) (r : Char) : Prop :=
  isPrint tbl r = true ∧ r.toNat ≠ 0x22 ∧ r.toNat ≠ 0x5C

instance plainRuneDecidable (tbl : Char → Bool) (r : Char) : Decidable (plainRune tbl r) := by
  unfold plainRune
  infer_instance

/-- The cluster client can be built: both `rest.InClusterConfig` and
`kubernetes.NewForConfig` succeed. -/
def clientAvailable {σ : Type} (env : Env σ) : Prop :=
  (∃ cfg, env.inClusterConfig = .ok cfg) ∧ ∃ cs, env.newForConfig = .ok cs

/-- The request is a Pod/v1 whose payload decodes to a pod, and every oracle
query among `calls` was answered `allowed` without a transport error. -/
def checksPassed {σ : Type} (env : Env σ) (req : AdmissionRequest) (calls : List Call) : Prop :=
  req.Kind.Kind = "Pod" ∧ req.Kind.Version = "v1" ∧
    (∃ pod, env.unmarshalPod req.Object.Raw = .ok (some pod)) ∧
    ∀ q a, Call.create q a ∈ calls → a = .status true

/-! ## Sample inputs -/

/-- A pod with four secret references, one of them repeated. -/
def samplePod : Pod :=
  { Spec :=
    { Volumes := [⟨"creds", some ⟨"db-creds"⟩⟩, ⟨"scratch", none⟩],
      Containers :=
        [ { Name := "app",
            EnvFrom := [⟨some ⟨"api-keys"⟩⟩, ⟨none⟩],
            Env := [⟨"PASSWORD", some ⟨some ⟨"db-creds", "password"⟩⟩⟩, ⟨"NODE", some ⟨none⟩⟩,
              ⟨"MODE", none⟩] },
          { Name := "sidecar", EnvFrom := [],
            Env := [⟨"TOKEN", some ⟨some ⟨"tls", "token"⟩⟩⟩] } ] } }

/-- A pod without secret references. -/
def plainPod : Pod :=
  { Spec := { Volumes := [⟨"scratch", none⟩],
              Containers := [{ Name := "app", EnvFrom := [], Env := [⟨"MODE", none⟩] }] } }

/-- An oracle that counts its queries; it denies the secrets of `deny` and is
unreachable for those of `down`. -/
def sampleClient (deny down : List String) : Clientset Nat :=
  { create := fun n sar =>
      (if sar.ResourceAttributes.Name ∈ down then .failed "connection refused"
       else .status (decide (sar.ResourceAttributes.Name ∉ deny)), n + 1) }

/-- An environment: payload `[1]` is `samplePod`, `[2]` is `plainPod`, the bytes
of `null` give a nil pod and anything else is malformed; every non-empty body
decodes to `review`. -/
def sampleEnv (cfg : Except String Unit) (cs : Clientset Nat) (review : AdmissionReview) :
    Env Nat :=
  { isPrintTable := fun _ => false,
    inClusterConfig := cfg,
    newForConfig := .ok cs,
    unmarshalPod := fun raw =>
      if raw = [1] then .ok (some samplePod)
      else if raw = [2] then .ok (some plainPod)
      else if raw = [110, 117, 108, 108] then .ok none
      else .error "invalid character 'x' looking for beginning of value",
    decodeReview := fun body =>
      if body = [] then .error "couldn't get version/kind; json parse error" else .ok review }

/-- A request of `user` for an object of kind `kind`/`version` with payload `raw`. -/
def sampleRequest (user kind version : String) (raw : List Nat) : AdmissionRequest :=
  { UID := "705ab4f5-6393-11e8-b7cc-42010a800002",
    Kind := { Group := "", Version := version, Kind := kind },
    Namespace := "prod",
    UserInfo := { Username := user },
    Object := { Raw := raw } }

/-- The review that carries `req`. -/
def reviewOf (req : Option AdmissionRequest) : AdmissionReview :=
  { Kind := "AdmissionReview", APIVersion := "admission.k8s.io/v1", Request := req,
    Response := none }

/-! ## Extraction and exemption -/

theorem foldl_volumes (vs : List Volume) (acc : List String) :
    vs.foldl (fun ret vol =>
      match vol.Secret with
      | some src => ret ++ [src.SecretName]
      | none => ret) acc
    = acc ++ vs.filterMap (fun v => v.Secret.map (fun src => src.SecretName)) := by
  induction vs generalizing acc with
  | nil => simp
  | cons v vs ih =>
    rcases v with ⟨n, _ | src⟩ <;> simp [ih]

theorem foldl_envFrom (es : List EnvFromSource) (acc : List String) :
    es.foldl (fun ret env =>
      match env.SecretRef with
      | some ref => ret ++ [ref.Name]
      | none => ret) acc
    = acc ++ es.filterMap (fun e => e.SecretRef.map (fun ref => ref.Name)) := by
  induction es generalizing acc with
  | nil => simp
  | cons e es ih =>
    rcases e with ⟨_ | ref⟩ <;> simp [ih]

theorem foldl_env (es : List EnvVar) (acc : List String) :
    es.foldl (fun ret env =>
      match env.ValueFrom with
      | none => ret
      | some src =>
        match src.SecretKeyRef with
        | none => ret
        | some sel => ret ++ [sel.Name]) acc
    = acc ++ es.filterMap (fun e =>
        (e.ValueFrom.bind (fun src => src.SecretKeyRef)).map (fun sel => sel.Name)) := by
  induction es generalizing acc with
  | nil => simp
  | cons e es ih =>
    rcases e with ⟨n, _ | ⟨_ | sel⟩⟩ <;> simp [ih]

theorem foldl_containers (cs : List Container) (acc : List String) :
    cs.foldl (fun ret cnt =>
      let ret := cnt.EnvFrom.foldl
        (fun ret env =>
          match env.SecretRef with
          | some ref => ret ++ [ref.Name]
          | none => ret)
        ret
      cnt.Env.foldl
        (fun ret env =>
          match env.ValueFrom with
          | none => ret
          | some src =>
            match src.SecretKeyRef with
            | none => ret
            | some sel => ret ++ [sel.Name])
        ret) acc
    = acc ++ cs.flatMap (fun c =>
        c.EnvFrom.filterMap (fun e => e.SecretRef.map (fun ref => ref.Name)) ++
          c.Env.filterMap (fun e =>
            (e.ValueFrom.bind (fun src => src.SecretKeyRef)).map (fun sel => sel.Name))) := by
  simp only [foldl_envFrom, foldl_env, List.append_assoc]
  induction cs generalizing acc with
  | nil => simp
  | cons c cs ih => simp only [List.foldl_cons, List.flatMap_cons, ih, List.append_assoc]

theorem getSecretsFromPodSpec_eq (ps : PodSpec) : getSecretsFromPodSpec ps = extractSpec ps := by
  unfold getSecretsFromPodSpec extractSpec
  simp only [foldl_volumes, foldl_containers, List.nil_append]

theorem length_filterMap_volumes (vs : List Volume) :
    (vs.filterMap (fun v => v.Secret.map (fun src => src.SecretName))).length
      = vs.countP (fun v => v.Secret.isSome) := by
  induction vs with
  | nil => rfl
  | cons v vs ih => rcases v with ⟨n, _ | src⟩ <;> simp [ih]

theorem length_filterMap_envFrom (es : List EnvFromSource) :
    (es.filterMap (fun e => e.SecretRef.map (fun ref => ref.Name))).length
      = es.countP (fun e => e.SecretRef.isSome) := by
  induction es with
  | nil => rfl
  | cons e es ih => rcases e with ⟨_ | ref⟩ <;> simp [ih]

theorem length_filterMap_env (es : List EnvVar) :
    (es.filterMap (fun e =>
        (e.ValueFrom.bind (fun src => src.SecretKeyRef)).map (fun sel => sel.Name))).length
      = es.countP (fun e =>
          match e.ValueFrom with
          | none => false
          | some src => src.SecretKeyRef.isSome) := by
  induction es with
  | nil => rfl
  | cons e es ih => rcases e with ⟨n, _ | ⟨_ | sel⟩⟩ <;> simp_all

theorem extractSpec_length (ps : PodSpec) : (extractSpec ps).length = countSetRefs ps := by
  unfold extractSpec countSetRefs
  rw [List.length_append, length_filterMap_volumes]
  congr 1
  induction ps.Containers with
  | nil => rfl
  | cons c cs ih =>
    simp only [List.flatMap_cons, List.length_append, List.map_cons, List.sum_cons, ih,
      length_filterMap_envFrom, length_filterMap_env]

theorem isControllerUser_iff (u : String) :
    isControllerUser u = true ↔
      u = "system:serviceaccount:kube-system:cronjob-controller" ∨
      u = "system:serviceaccount:kube-system:daemon-set-controller" ∨
      u = "system:serviceaccount:kube-system:deployment-controller" ∨
      u = "system:serviceaccount:kube-system:job-controller" ∨
      u = "system:serviceaccount:kube-system:replicaset-controller" ∨
      u = "system:serviceaccount:kube-system:replication-controller" ∨
      u = "system:serviceaccount:kube-system:statefulset-controller" := by
  unfold isControllerUser users
  simp only [List.lookup]
  by_cases h1 : u = "system:serviceaccount:kube-system:cronjob-controller"
  · simp [h1]
  by_cases h2 : u = "system:serviceaccount:kube-system:daemon-set-controller"
  · simp [h2]
  by_cases h3 : u = "system:serviceaccount:kube-system:deployment-controller"
  · simp [h3]
  by_cases h4 : u = "system:serviceaccount:kube-system:job-controller"
  · simp [h4]
  by_cases h5 : u = "system:serviceaccount:kube-system:replicaset-controller"
  · simp [h5]
  by_cases h6 : u = "system:serviceaccount:kube-system:replication-controller"
  · simp [h6]
  by_cases h7 : u = "system:serviceaccount:kube-system:statefulset-controller"
  · simp [h7]
  have e1 : (u == "system:serviceaccount:kube-system:cronjob-controller") = false := by simpa using h1
  have e2 : (u == "system:serviceaccount:kube-system:daemon-set-controller") = false := by simpa using h2
  have e3 : (u == "system:serviceaccount:kube-system:deployment-controller") = false := by simpa using h3
  have e4 : (u == "system:serviceaccount:kube-system:job-controller") = false := by simpa using h4
  have e5 : (u == "system:serviceaccount:kube-system:replicaset-controller") = false := by simpa using h5
  have e6 : (u == "system:serviceaccount:kube-system:replication-controller") = false := by simpa using h6
  have e7 : (u == "system:serviceaccount:kube-system:statefulset-controller") = false := by simpa using h7
  simp [e1, e2, e3, e4, e5, e6, e7, h1, h2, h3, h4, h5, h6, h7]


/-! ## The authorization loop -/

theorem authLoop_cons_failed {σ : Type} (tbl : Char → Bool) (cs : Clientset σ)
    (req : AdmissionRequest) (secret : String) (rest : List String) (s s1 : σ) (e : String)
    (h : cs.create s (mkSar req secret) = (.failed e, s1)) :
    authLoop tbl cs req (secret :: rest) s =
      (some ("checking permissions: " ++ e), [.create (mkSar req secret) (.failed e)], s1) := by
  simp [authLoop, h]

theorem authLoop_cons_denied {σ : Type} (tbl : Char → Bool) (cs : Clientset σ)
    (req : AdmissionRequest) (secret : String) (rest : List String) (s s1 : σ)
    (h : cs.create s (mkSar req secret) = (.status false, s1)) :
    authLoop tbl cs req (secret :: rest) s =
      (some (denialMessage tbl req.UserInfo.Username secret req.Namespace),
        [.create (mkSar req secret) (.status false)], s1) := by
  simp [authLoop, h]

theorem authLoop_cons_allowed {σ : Type} (tbl : Char → Bool) (cs : Clientset σ)
    (req : AdmissionRequest) (secret : String) (rest : List String) (s s1 : σ)
    (h : cs.create s (mkSar req secret) = (.status true, s1)) :
    authLoop tbl cs req (secret :: rest) s =
      ((authLoop tbl cs req rest s1).1,
        .create (mkSar req secret) (.status true) :: (authLoop tbl cs req rest s1).2.1,
        (authLoop tbl cs req rest s1).2.2) := by
  simp [authLoop, h]

theorem authLoop_all_allowed {σ : Type} (tbl : Char → Bool) (cs : Clientset σ)
    (req : AdmissionRequest) (secrets : List String) (s : σ)
    (h : ∀ a ∈ oracleAnswers cs s (secrets.map (mkSar req)), a = .status true) :
    (authLoop tbl cs req secrets s).1 = none ∧
      (authLoop tbl cs req secrets s).2.1 =
        secrets.map (fun n => Call.create (mkSar req n) (.status true)) := by
  induction secrets generalizing s with
  | nil => exact ⟨rfl, rfl⟩
  | cons x xs ih =>
    rcases hc : cs.create s (mkSar req x) with ⟨a, s1⟩
    simp only [List.map_cons, oracleAnswers, hc, List.mem_cons, forall_eq_or_imp] at h
    obtain ⟨rfl, h2⟩ := h
    rw [authLoop_cons_allowed tbl cs req x xs s s1 hc]
    exact ⟨(ih s1 h2).1, by simp [(ih s1 h2).2]⟩

theorem authLoop_first_denied {σ : Type} (tbl : Char → Bool) (cs : Clientset σ)
    (req : AdmissionRequest) (secrets : List String) (k : Nat) (s : σ)
    (hk : k < secrets.length)
    (h : oracleAnswers cs s ((secrets.take (k + 1)).map (mkSar req)) =
      List.replicate k (.status true) ++ [.status false]) :
    (authLoop tbl cs req secrets s).1 =
        some (denialMessage tbl req.UserInfo.Username secrets[k] req.Namespace) ∧
      oracleQueries (authLoop tbl cs req secrets s).2.1 =
        (secrets.take (k + 1)).map (mkSar req) ∧
      (authLoop tbl cs req secrets s).2.1 =
        (secrets.take k).map (fun n => Call.create (mkSar req n) (.status true)) ++
          [Call.create (mkSar req secrets[k]) (.status false)] := by
  induction secrets generalizing k s with
  | nil => simp at hk
  | cons x xs ih =>
    rcases hc : cs.create s (mkSar req x) with ⟨a, s1⟩
    cases k with
    | zero =>
      simp only [List.take_succ_cons, List.take_zero, List.map_cons, List.map_nil, oracleAnswers,
        hc, List.replicate_zero, List.nil_append, List.cons.injEq, and_true] at h
      subst h
      rw [authLoop_cons_denied tbl cs req x xs s s1 hc]
      simp [oracleQueries]
    | succ j =>
      simp only [List.take_succ_cons, List.map_cons, oracleAnswers, hc, List.replicate_succ,
        List.cons_append, List.cons.injEq] at h
      obtain ⟨rfl, h2⟩ := h
      have hj : j < xs.length := by simpa using hk
      obtain ⟨i1, i2, i3⟩ := ih j s1 hj h2
      rw [authLoop_cons_allowed tbl cs req x xs s s1 hc]
      refine ⟨?_, ?_, ?_⟩
      · simpa using i1
      · simp [oracleQueries, i2]
      · simp [i3]

theorem authLoop_none_iff {σ : Type} (tbl : Char → Bool) (cs : Clientset σ)
    (req : AdmissionRequest) (secrets : List String) (s : σ) :
    (authLoop tbl cs req secrets s).1 = none ↔
      ∀ q a, Call.create q a ∈ (authLoop tbl cs req secrets s).2.1 → a = .status true := by
  induction secrets generalizing s with
  | nil => simp [authLoop]
  | cons x xs ih =>
    rcases hc : cs.create s (mkSar req x) with ⟨a, s1⟩
    rcases a with e | b
    · rw [authLoop_cons_failed tbl cs req x xs s s1 e hc]
      simp
    · cases b
      · rw [authLoop_cons_denied tbl cs req x xs s s1 hc]
        simp
      · rw [authLoop_cons_allowed tbl cs req x xs s s1 hc]
        simp only [List.mem_cons, Call.create.injEq]
        rw [ih s1]
        constructor
        · intro h q a hq
          rcases hq with ⟨_, rfl⟩ | hq
          · rfl
          · exact h q a hq
        · intro h q a hq
          exact h q a (Or.inr hq)

theorem authLoop_calls_create {σ : Type} (tbl : Char → Bool) (cs : Clientset σ)
    (req : AdmissionRequest) (secrets : List String) (s : σ) (c : Call)
    (hc : c ∈ (authLoop tbl cs req secrets s).2.1) : ∃ q a, c = Call.create q a := by
  induction secrets generalizing s with
  | nil => simp [authLoop] at hc
  | cons x xs ih =>
    rcases hcr : cs.create s (mkSar req x) with ⟨a, s1⟩
    rcases a with e | b
    · rw [authLoop_cons_failed tbl cs req x xs s s1 e hcr] at hc
      simp only [List.mem_singleton] at hc
      exact ⟨_, _, hc⟩
    · cases b
      · rw [authLoop_cons_denied tbl cs req x xs s s1 hcr] at hc
        simp only [List.mem_singleton] at hc
        exact ⟨_, _, hc⟩
      · rw [authLoop_cons_allowed tbl cs req x xs s s1 hcr] at hc
        simp only [List.mem_cons] at hc
        rcases hc with hc | hc
        · exact ⟨_, _, hc⟩
        · exact ih s1 hc

theorem oracleQueries_map_create (f : String → SubjectAccessReview) (a : Answer)
    (l : List String) : oracleQueries (l.map (fun n => Call.create (f n) a)) = l.map f := by
  induction l with
  | nil => rfl
  | cons x xs ih => simp [oracleQueries, ih]


/-! ## Properties of the decision -/

/-- C4: `getSecretsFromPodSpec` is total and equals the reference extraction (the
secret names of the volumes whose `Secret` is set, in volume order, then for each
container in order its `envFrom` names with `SecretRef` set followed by its `env`
names with `ValueFrom.SecretKeyRef` set); duplicates are kept, so the length of
the output is the number of set references. -/
theorem C4_extract_refines_spec (ps : PodSpec) :
    getSecretsFromPodSpec ps = extractSpec ps ∧
      (getSecretsFromPodSpec ps).length = countSetRefs ps := by
  refine ⟨getSecretsFromPodSpec_eq ps, ?_⟩
  rw [getSecretsFromPodSpec_eq, extractSpec_length]

/-- C5: `isControllerUser u` holds exactly when `u` is one of the seven controller
service accounts of `kube-system`, compared as whole strings; names differing by
case, by surrounding blanks, by namespace or by controller, prefixes and
wildcards are not exempt. -/
theorem C5_exempt_iff_listed (u : String) :
    (isControllerUser u = true ↔
      u = "system:serviceaccount:kube-system:cronjob-controller" ∨
      u = "system:serviceaccount:kube-system:daemon-set-controller" ∨
      u = "system:serviceaccount:kube-system:deployment-controller" ∨
      u = "system:serviceaccount:kube-system:job-controller" ∨
      u = "system:serviceaccount:kube-system:replicaset-controller" ∨
      u = "system:serviceaccount:kube-system:replication-controller" ∨
      u = "system:serviceaccount:kube-system:statefulset-controller") ∧
    isControllerUser "System:ServiceAccount:Kube-System:Job-Controller" = false ∧
    isControllerUser "system:serviceaccount:kube-system:job-controller " = false ∧
    isControllerUser " system:serviceaccount:kube-system:job-controller" = false ∧
    isControllerUser "system:serviceaccount:default:job-controller" = false ∧
    isControllerUser "system:serviceaccount:kube-system:endpoint-controller" = false ∧
    isControllerUser "system:serviceaccount:kube-system:job" = false ∧
    isControllerUser "system:serviceaccount:kube-system:*" = false ∧
    isControllerUser "" = false := by
  refine ⟨isControllerUser_iff u, ?_, ?_, ?_, ?_, ?_, ?_, ?_, ?_⟩ <;> decide

/-- C2: for a request whose user is exempt, `validateSecretAccess` returns the
response with the request's UID and `Allowed = true`, a nil error, and makes no
outside call at all (no cluster client is built, no oracle query is issued),
whatever the kind, the payload and the environment. -/
theorem C2_exempt_allowed_without_calls {σ : Type} (env : Env σ) (s : σ)
    (r : AdmissionReview) (req : AdmissionRequest) (hr : r.Request = some req)
    (hex : isControllerUser req.UserInfo.Username = true) :
    validateSecretAccess env s r =
      some ⟨{ UID := req.UID, Allowed := true, Result := none }, none, [], s⟩ := by
  simp [validateSecretAccess, hr, hex]

/-- Witness of C2: the job controller, an unsupported kind, a malformed payload,
no cluster configuration and an oracle that would deny and fail. -/
theorem C2_exempt_allowed_without_calls_witness :
    isControllerUser "system:serviceaccount:kube-system:job-controller" = true ∧
      validateSecretAccess
        (sampleEnv (.error "unable to load in-cluster configuration")
          (sampleClient ["db-creds"] ["tls"]) (reviewOf none)) 7
        (reviewOf (some (sampleRequest "system:serviceaccount:kube-system:job-controller"
          "ConfigMap" "v1" [9]))) =
      some ⟨{ UID := "705ab4f5-6393-11e8-b7cc-42010a800002", Allowed := true, Result := none },
        none, [], 7⟩ :=
  ⟨by decide, C2_exempt_allowed_without_calls _ 7 _ _ rfl (by decide)⟩

/-- C6: for a non-exempt Pod/v1 request whose payload decodes, served by a
cluster client whose oracle answers `allowed` to every query put to it,
`validateSecretAccess` returns `Allowed = true` with a nil error, and the oracle
queries issued are one per extracted reference, in extraction order, duplicates
included, each for verb `get` on resource `secrets` with the name of the
reference, the namespace of the request and its username; with no reference
there is no query. -/
theorem C6_all_allowed {σ : Type} (env : Env σ) (s : σ) (r : AdmissionReview)
    (req : AdmissionRequest) (cfg : Unit) (cs : Clientset σ) (pod : Pod)
    (hr : r.Request = some req)
    (hne : isControllerUser req.UserInfo.Username = false)
    (hcfg : env.inClusterConfig = .ok cfg) (hcs : env.newForConfig = .ok cs)
    (hkind : req.Kind.Kind = "Pod") (hver : req.Kind.Version = "v1")
    (hpod : env.unmarshalPod req.Object.Raw = .ok (some pod))
    (hans : ∀ a ∈ oracleAnswers cs s ((getSecretsFromPodSpec pod.Spec).map (mkSar req)),
      a = .status true) :
    ∃ run, validateSecretAccess env s r = some run ∧
      run.resp = { UID := req.UID, Allowed := true, Result := none } ∧
      run.err = none ∧
      oracleQueries run.calls = (getSecretsFromPodSpec pod.Spec).map (fun name =>
        { ResourceAttributes :=
            { Verb := "get", Resource := "secrets", Name := name, Namespace := req.Namespace },
          User := req.UserInfo.Username }) ∧
      (getSecretsFromPodSpec pod.Spec = [] → oracleQueries run.calls = []) := by
  obtain ⟨h1, h2⟩ :=
    authLoop_all_allowed env.isPrintTable cs req (getSecretsFromPodSpec pod.Spec) s hans
  rcases hl : authLoop env.isPrintTable cs req (getSecretsFromPodSpec pod.Spec) s with
    ⟨e, calls, s1⟩
  rw [hl] at h1 h2
  simp only at h1 h2
  subst h1
  have hq : oracleQueries calls = (getSecretsFromPodSpec pod.Spec).map (mkSar req) := by
    rw [h2, oracleQueries_map_create]
  refine ⟨⟨{ UID := req.UID, Allowed := true, Result := none }, none,
    .inClusterConfig :: .newForConfig :: calls, s1⟩, ?_, rfl, rfl, ?_, ?_⟩
  · simp [validateSecretAccess, hr, hne, hcfg, hcs, getSecret, hkind, hver, hpod, hl]
  · simpa [oracleQueries, mkSar] using hq
  · intro hnil
    simp [oracleQueries, hq, hnil]

/-- Witness of C6: `alice` may read every secret of `samplePod`; four queries,
the repeated `db-creds` asked twice. -/
theorem C6_all_allowed_witness :
    ∃ run, validateSecretAccess
        (sampleEnv (.ok ()) (sampleClient [] []) (reviewOf none)) 0
        (reviewOf (some (sampleRequest "alice" "Pod" "v1" [1]))) = some run ∧
      run.resp = { UID := "705ab4f5-6393-11e8-b7cc-42010a800002", Allowed := true,
                   Result := none } ∧
      run.err = none ∧
      oracleQueries run.calls = ["db-creds", "api-keys", "db-creds", "tls"].map (fun name =>
        { ResourceAttributes :=
            { Verb := "get", Resource := "secrets", Name := name, Namespace := "prod" },
          User := "alice" }) ∧
      (getSecretsFromPodSpec samplePod.Spec = [] → oracleQueries run.calls = []) :=
  C6_all_allowed
    (sampleEnv (.ok ()) (sampleClient [] []) (reviewOf none))
    0 (reviewOf (some (sampleRequest "alice" "Pod" "v1" [1])))
    (sampleRequest "alice" "Pod" "v1" [1]) () _ samplePod
    rfl (by decide) rfl rfl rfl rfl rfl (by decide)

theorem validateSecretAccess_uid {σ : Type} (env : Env σ) (s : σ) (r : AdmissionReview)
    (req : AdmissionRequest) (hr : r.Request = some req) (run : Run σ)
    (h : validateSecretAccess env s r = some run) :
    run.resp.UID = req.UID ∧ run.resp.Result = none ∧
      (run.resp.Allowed = true ↔ run.err = none) := by
  simp only [validateSecretAccess, hr] at h
  split at h
  · cases h; simp
  · split at h
    · cases h; simp
    · split at h
      · cases h; simp
      · split at h
        · cases h
        · cases h; simp
        · split at h
          · cases h; simp
          · cases h; simp

theorem validateSecretAccess_none_iff {σ : Type} (env : Env σ) (s : σ) (r : AdmissionReview)
    (req : AdmissionRequest) (hr : r.Request = some req) :
    validateSecretAccess env s r = none ↔
      isControllerUser req.UserInfo.Username = false ∧ clientAvailable env ∧
        req.Kind.Kind = "Pod" ∧ req.Kind.Version = "v1" ∧
        env.unmarshalPod req.Object.Raw = .ok none := by
  simp only [validateSecretAccess, hr, clientAvailable, getSecret]
  cases hex : isControllerUser req.UserInfo.Username
  · rcases hcfg : env.inClusterConfig with e | cfg
    · simp
    · rcases hcs : env.newForConfig with e | cs
      · simp
      · by_cases hk : req.Kind.Kind = "Pod" ∧ req.Kind.Version = "v1"
        · rcases hp : env.unmarshalPod req.Object.Raw with e | (_ | pod)
          · simp [hk]
          · simp [hk]
          · simp only [hk, and_self, if_true]
            rcases hl : authLoop env.isPrintTable cs req (getSecretsFromPodSpec pod.Spec) s with
              ⟨e | e, calls, s1⟩ <;> simp
        · simp only [hk, if_false]
          simp
          tauto
  · simp


/-- C7: every response that `validateSecretAccess` returns carries the UID of
the request, on each of its return paths; the only requests for which it
returns nothing are those of a non-exempt user for a Pod/v1 whose payload
decodes to a nil pod, with the cluster client available.  `serve` hands the
response on with the same UID and verdict, setting only the message to the
error. -/
theorem C7_uid_echoed {σ : Type} (env : Env σ) (s : σ) (r : AdmissionReview)
    (req : AdmissionRequest) (hr : r.Request = some req) :
    (∀ run, validateSecretAccess env s r = some run → run.resp.UID = req.UID) ∧
    (validateSecretAccess env s r = none ↔
      isControllerUser req.UserInfo.Username = false ∧ clientAvailable env ∧
        req.Kind.Kind = "Pod" ∧ req.Kind.Version = "v1" ∧
        env.unmarshalPod req.Object.Raw = .ok none) ∧
    (∀ body run, env.decodeReview body = .ok r → validateSecretAccess env s r = some run →
      serve env s (.ok body) =
        some ({ Kind := "AdmissionReview", APIVersion := "admission.k8s.io/v1", Request := none,
                Response := some { UID := req.UID, Allowed := run.resp.Allowed,
                                   Result := run.err.map Status.mk } },
              run.calls, run.st)) := by
  refine ⟨fun run h => (validateSecretAccess_uid env s r req hr run h).1,
    validateSecretAccess_none_iff env s r req hr, ?_⟩
  intro body run hdec hrun
  obtain ⟨hu, hres, _⟩ := validateSecretAccess_uid env s r req hr run hrun
  rcases run with ⟨⟨uid, allowed, result⟩, err, calls, st⟩
  simp only at hu hres
  subst hu hres
  cases err <;> simp [serve, hdec, hrun]

/-- Witness of C7: a denied request, whose verdict `serve` sends back under the
UID of the request. -/
theorem C7_uid_echoed_witness :
    (reviewOf (some (sampleRequest "alice" "Pod" "v1" [1]))).Request =
        some (sampleRequest "alice" "Pod" "v1" [1]) ∧
      serve (sampleEnv (.ok ()) (sampleClient ["db-creds"] [])
          (reviewOf (some (sampleRequest "alice" "Pod" "v1" [1])))) 0 (.ok [1]) =
        some ({ Kind := "AdmissionReview", APIVersion := "admission.k8s.io/v1", Request := none,
                Response := some
                  { UID := "705ab4f5-6393-11e8-b7cc-42010a800002", Allowed := false,
                    Result := some ⟨"User \"alice\" does not have access to the secret " ++
                      "\"db-creds\" in the namespace \"prod\"."⟩ } },
              [.inClusterConfig, .newForConfig,
                .create (mkSar (sampleRequest "alice" "Pod" "v1" [1]) "db-creds") (.status false)],
              1) :=
  ⟨rfl, (C7_uid_echoed
    (sampleEnv (.ok ()) (sampleClient ["db-creds"] [])
      (reviewOf (some (sampleRequest "alice" "Pod" "v1" [1])))) 0
    (reviewOf (some (sampleRequest "alice" "Pod" "v1" [1])))
    (sampleRequest "alice" "Pod" "v1" [1]) rfl).2.2 [1]
    ⟨{ UID := "705ab4f5-6393-11e8-b7cc-42010a800002", Allowed := false, Result := none },
      some ("User \"alice\" does not have access to the secret " ++
        "\"db-creds\" in the namespace \"prod\"."),
      [.inClusterConfig, .newForConfig,
        .create (mkSar (sampleRequest "alice" "Pod" "v1" [1]) "db-creds") (.status false)], 1⟩
    rfl rfl⟩

/-- C10 (what the code does): for a review without request, which the envelope
codec decodes without error, `validateSecretAccess` dereferences the nil request
and panics, in every environment, and `serve` returns no review. -/
theorem C10_nil_request_panics :
    (∀ (σ : Type) (env : Env σ) (s : σ), validateSecretAccess env s (reviewOf none) = none) ∧
      (sampleEnv (.ok ()) (sampleClient [] []) (reviewOf none)).decodeReview [123, 125] =
        .ok (reviewOf none) ∧
      serve (sampleEnv (.ok ()) (sampleClient [] []) (reviewOf none)) 0 (.ok [123, 125]) = none :=
  ⟨fun _ _ _ => rfl, rfl, rfl⟩


/-- C1, as stated, fails outside a cluster: `alice` asks for a Pod/v1 whose
payload decodes to a pod without secret references, `rest.InClusterConfig`
fails, no oracle query is issued (so every issued query was allowed), and the
verdict is `Allowed = false`. -/
theorem C1_counterexample_no_cluster_config :
    ∃ run, validateSecretAccess
        (sampleEnv (.error "unable to load in-cluster configuration")
          (sampleClient [] []) (reviewOf none)) 0
        (reviewOf (some (sampleRequest "alice" "Pod" "v1" [2]))) = some run ∧
      oracleQueries run.calls = [] ∧
      ¬ (run.resp.Allowed = true ↔
          (isControllerUser "alice" = true ∨
            checksPassed
              (sampleEnv (.error "unable to load in-cluster configuration")
                (sampleClient [] []) (reviewOf none))
              (sampleRequest "alice" "Pod" "v1" [2]) run.calls)) := by
  refine ⟨⟨{ UID := "705ab4f5-6393-11e8-b7cc-42010a800002", Allowed := false, Result := none },
    some "reading incluster config: unable to load in-cluster configuration",
    [.inClusterConfig], 0⟩, rfl, rfl, ?_⟩
  intro h
  have hp : checksPassed
      (sampleEnv (.error "unable to load in-cluster configuration")
        (sampleClient [] []) (reviewOf none))
      (sampleRequest "alice" "Pod" "v1" [2]) [.inClusterConfig] :=
    ⟨rfl, rfl, ⟨plainPod, rfl⟩, by intro q a hq; simp at hq⟩
  exact Bool.false_ne_true (h.mpr (Or.inr hp))

theorem validateSecretAccess_verdict_log {σ : Type} (env : Env σ) (s : σ) (r : AdmissionReview)
    (req : AdmissionRequest) (hr : r.Request = some req)
    (hpod : env.unmarshalPod req.Object.Raw ≠ .ok none) :
    ∃ run, validateSecretAccess env s r = some run ∧
      (run.resp.Allowed = true ↔
        (isControllerUser req.UserInfo.Username = true ∨
          (clientAvailable env ∧ checksPassed env req run.calls))) ∧
      (run.resp.Allowed = true → run.err = none) ∧
      (run.resp.Allowed = false → run.err ≠ none) ∧
      (∀ q e, Call.create q (.failed e) ∈ run.calls →
        run.resp.Allowed = false ∧ run.err ≠ none) := by
  simp only [validateSecretAccess, hr, clientAvailable, checksPassed, getSecret]
  cases hex : isControllerUser req.UserInfo.Username
  · rcases hcfg : env.inClusterConfig with e | cfg
    · simp
    · rcases hcs : env.newForConfig with e | cs
      · simp
      · by_cases hk : req.Kind.Kind = "Pod" ∧ req.Kind.Version = "v1"
        · rcases hp : env.unmarshalPod req.Object.Raw with e | (_ | pod)
          · simp [hk]
          · exact absurd hp hpod
          · have hiff := authLoop_none_iff env.isPrintTable cs req
              (getSecretsFromPodSpec pod.Spec) s
            simp only [hk, and_self, if_true, Bool.false_eq_true, if_false]
            rcases hl : authLoop env.isPrintTable cs req (getSecretsFromPodSpec pod.Spec) s with
              ⟨e | e, calls, s1⟩
            · rw [hl] at hiff
              simp only [true_iff] at hiff
              simp only [hk, and_self, if_true, Bool.false_eq_true, if_false]
              refine ⟨_, rfl, ?_, ?_, ?_, ?_⟩
              · simp only [true_iff]
                simp only [Except.ok.injEq, exists_eq', exists_const, true_and, Option.some.injEq,
                  and_self]
                right
                intro q a hq
                simp only [List.mem_cons, reduceCtorEq, false_or] at hq
                exact hiff q a hq
              · intro _; rfl
              · intro h; simp at h
              · intro q e hq
                simp only [List.mem_cons, reduceCtorEq, false_or] at hq
                have := hiff q _ hq
                simp at this
            · rw [hl] at hiff
              simp only [reduceCtorEq, false_iff, not_forall] at hiff
              obtain ⟨q, a, hq, ha⟩ := hiff
              simp only [hk, and_self, if_true, Bool.false_eq_true, if_false]
              refine ⟨_, rfl, ?_, ?_, ?_, ?_⟩
              · simp only [Bool.false_eq_true, false_iff, false_or, not_and, not_forall]
                intro _ _ _ _
                exact ⟨q, a, by simp [hq], ha⟩
              · intro h; simp at h
              · intro _; simp
              · intro _ _ _; simp
        · simp only [hk, if_false]
          simp
          tauto
  · simp

/-! ## Error messages -/

set_option maxRecDepth 8000

theorem appendEscapedRune_plain (tbl : Char → Bool) (r : Char) (h : plainRune tbl r) :
    appendEscapedRune tbl r = [r] := by
  obtain ⟨h1, h2, h3⟩ := h
  simp [appendEscapedRune, h1, h2, h3]

theorem flatMap_plain (tbl : Char → Bool) (l : List Char) (h : ∀ c ∈ l, plainRune tbl c) :
    l.flatMap (appendEscapedRune tbl) = l := by
  induction l with
  | nil => rfl
  | cons c cs ih =>
    simp only [List.mem_cons, forall_eq_or_imp] at h
    simp [List.flatMap_cons, appendEscapedRune_plain tbl c h.1, ih h.2]

theorem infix_quote_plain (tbl : Char → Bool) (u : String) (h : ∀ c ∈ u.data, plainRune tbl c) :
    u.data <:+: (quote tbl u).data := by
  refine ⟨[Char.ofNat 0x22], [Char.ofNat 0x22], ?_⟩
  simp [quote, flatMap_plain tbl u.data h]

theorem quote_infix_denialMessage (tbl : Char → Bool) (u s ns : String) :
    (quote tbl u).data <:+: (denialMessage tbl u s ns).data ∧
      (quote tbl s).data <:+: (denialMessage tbl u s ns).data ∧
      (quote tbl ns).data <:+: (denialMessage tbl u s ns).data := by
  refine ⟨⟨"User ".data, " does not have access to the secret ".data ++ (quote tbl s).data ++
      " in the namespace ".data ++ (quote tbl ns).data ++ ".".data, ?_⟩,
    ⟨"User ".data ++ (quote tbl u).data ++ " does not have access to the secret ".data,
      " in the namespace ".data ++ (quote tbl ns).data ++ ".".data, ?_⟩,
    ⟨"User ".data ++ (quote tbl u).data ++ " does not have access to the secret ".data ++
      (quote tbl s).data ++ " in the namespace ".data, ".".data, ?_⟩⟩ <;>
  simp only [denialMessage, String.data_append, List.append_assoc]

theorem authLoop_err_head {σ : Type} (tbl : Char → Bool) (cs : Clientset σ)
    (req : AdmissionRequest) (secrets : List String) (s : σ) (e : String)
    (h : (authLoop tbl cs req secrets s).1 = some e) :
    e.data.head? = some 'c' ∨ e.data.head? = some 'U' := by
  induction secrets generalizing s with
  | nil => simp [authLoop] at h
  | cons x xs ih =>
    rcases hc : cs.create s (mkSar req x) with ⟨a, s1⟩
    rcases a with e1 | b
    · rw [authLoop_cons_failed tbl cs req x xs s s1 e1 hc] at h
      simp only [Option.some.injEq] at h
      subst h
      exact Or.inl rfl
    · cases b
      · rw [authLoop_cons_denied tbl cs req x xs s s1 hc] at h
        simp only [Option.some.injEq] at h
        subst h
        exact Or.inr rfl
      · rw [authLoop_cons_allowed tbl cs req x xs s s1 hc] at h
        exact ih s1 h

theorem unsupportedKindError_head (tbl : Char → Bool) (gvk : GroupVersionKind) :
    (unsupportedKindError tbl gvk).data.head? = some 'g' := rfl

theorem unmarshal_error_ne_unsupported (tbl : Char → Bool) (gvk : GroupVersionKind)
    (x : String) :
    "getting secrets: " ++ ("unmarshalling request object of type: " ++ x) ≠
      unsupportedKindError tbl gvk := by
  intro h
  have h2 := congrArg (fun t : String => t.data[19]?) h
  have h3 : (some 'm' : Option Char) = some 's' := h2
  exact absurd h3 (by decide)

theorem serve_of_run {σ : Type} (env : Env σ) (s : σ) (r : AdmissionReview)
    (req : AdmissionRequest) (hr : r.Request = some req) (body : List Nat) (run : Run σ)
    (hdec : env.decodeReview body = .ok r) (hrun : validateSecretAccess env s r = some run) :
    serve env s (.ok body) =
      some ({ Kind := "AdmissionReview", APIVersion := "admission.k8s.io/v1", Request := none,
              Response := some { UID := req.UID, Allowed := run.resp.Allowed,
                                 Result := run.err.map Status.mk } },
            run.calls, run.st) := by
  obtain ⟨hu, hres, _⟩ := validateSecretAccess_uid env s r req hr run hrun
  rcases run with ⟨⟨uid, allowed, result⟩, err, calls, st⟩
  simp only at hu hres
  subst hu hres
  cases err <;> simp [serve, hdec, hrun]

/-- C8, as stated, fails for a name that `%q` escapes: for the user `CORP\alice`
the message of the verdict spells the name with a doubled backslash, and does
not contain the name itself. -/
theorem C8_counterexample_backslash_user :
    ∃ out calls st, serve
        (sampleEnv (.ok ()) (sampleClient ["db-creds"] [])
          (reviewOf (some (sampleRequest "CORP\\alice" "Pod" "v1" [1])))) 0 (.ok [1]) =
        some (out, calls, st) ∧
      out.Response = some
        { UID := "705ab4f5-6393-11e8-b7cc-42010a800002", Allowed := false,
          Result := some ⟨"User \"CORP\\\\alice\" does not have access to the secret " ++
            "\"db-creds\" in the namespace \"prod\"."⟩ } ∧
      ¬ "CORP\\alice".data <:+: ("User \"CORP\\\\alice\" does not have access to the secret " ++
            "\"db-creds\" in the namespace \"prod\".").data :=
  ⟨_, _, _, rfl, rfl, by decide⟩

/-- C8 (amended): the denial branch of the loop returns the message
`User %q does not have access to the secret %q in the namespace %q.`, which
`serve` copies into the message of the verdict; this message contains the
`%q`-quoted forms of the user, the secret and the namespace, and it contains
each of the three strings itself whenever that string is made of runes that `%q`
prints unchanged (printable, neither `"` nor `\`). -/
theorem C8_denial_message_names (tbl : Char → Bool) (u s ns : String) :
    (∀ (σ : Type) (cs : Clientset σ) (req : AdmissionRequest) (rest : List String) (st : σ),
      (cs.create st (mkSar req s)).1 = .status false →
        (authLoop tbl cs req (s :: rest) st).1 =
          some (denialMessage tbl req.UserInfo.Username s req.Namespace)) ∧
    (∀ (σ : Type) (env : Env σ) (st : σ) (r : AdmissionReview) (req : AdmissionRequest)
        (body : List Nat) (run : Run σ) (e : String),
      r.Request = some req → env.decodeReview body = .ok r →
        validateSecretAccess env st r = some run → run.err = some e →
        ∃ out calls st1, serve env st (.ok body) = some (out, calls, st1) ∧
          out.Response = some { UID := req.UID, Allowed := run.resp.Allowed,
                                Result := some ⟨e⟩ }) ∧
    ((quote tbl u).data <:+: (denialMessage tbl u s ns).data ∧
      (quote tbl s).data <:+: (denialMessage tbl u s ns).data ∧
      (quote tbl ns).data <:+: (denialMessage tbl u s ns).data) ∧
    ((∀ c ∈ u.data, plainRune tbl c) → u.data <:+: (denialMessage tbl u s ns).data) ∧
    ((∀ c ∈ s.data, plainRune tbl c) → s.data <:+: (denialMessage tbl u s ns).data) ∧
    ((∀ c ∈ ns.data, plainRune tbl c) → ns.data <:+: (denialMessage tbl u s ns).data) := by
  obtain ⟨q1, q2, q3⟩ := quote_infix_denialMessage tbl u s ns
  refine ⟨?_, ?_, ⟨q1, q2, q3⟩, fun h => (infix_quote_plain tbl u h).trans q1,
    fun h => (infix_quote_plain tbl s h).trans q2, fun h => (infix_quote_plain tbl ns h).trans q3⟩
  · intro σ cs req rest st h
    rcases hc : cs.create st (mkSar req s) with ⟨a, s1⟩
    rw [hc] at h
    simp only at h
    subst h
    rw [authLoop_cons_denied tbl cs req s rest st s1 hc]
  · intro σ env st r req body run e hr hdec hrun he
    refine ⟨_, _, _, serve_of_run env st r req hr body run hdec hrun, ?_⟩
    simp [he]

/-- Witness of C8: `alice`, `db-creds` and `prod` are made of plain runes and
occur in the message. -/
theorem C8_denial_message_names_witness :
    (∀ c ∈ "alice".data, plainRune (fun _ => false) c) ∧
    (∀ c ∈ "db-creds".data, plainRune (fun _ => false) c) ∧
    (∀ c ∈ "prod".data, plainRune (fun _ => false) c) ∧
    "alice".data <:+: (denialMessage (fun _ => false) "alice" "db-creds" "prod").data ∧
    "db-creds".data <:+: (denialMessage (fun _ => false) "alice" "db-creds" "prod").data ∧
    "prod".data <:+: (denialMessage (fun _ => false) "alice" "db-creds" "prod").data :=
  ⟨by decide, by decide, by decide,
    (C8_denial_message_names (fun _ => false) "alice" "db-creds" "prod").2.2.2.1 (by decide),
    (C8_denial_message_names (fun _ => false) "alice" "db-creds" "prod").2.2.2.2.1 (by decide),
    (C8_denial_message_names (fun _ => false) "alice" "db-creds" "prod").2.2.2.2.2 (by decide)⟩


/-- C9, as stated, fails for a Pod/v1 request of a user named
`unsupported kind`: the oracle denies `db-creds`, and the error of the denial
contains the words `unsupported kind` although the kind is supported. -/
theorem C9_counterexample_user_named_unsupported_kind :
    ∃ run, validateSecretAccess
        (sampleEnv (.ok ()) (sampleClient ["db-creds"] []) (reviewOf none)) 0
        (reviewOf (some (sampleRequest "unsupported kind" "Pod" "v1" [1]))) = some run ∧
      isControllerUser "unsupported kind" = false ∧
      run.err = some ("User \"unsupported kind\" does not have access to the secret " ++
        "\"db-creds\" in the namespace \"prod\".") ∧
      ¬ ((∃ msg, run.err = some msg ∧ "unsupported kind".data <:+: msg.data) ↔
          ¬ ((sampleRequest "unsupported kind" "Pod" "v1" [1]).Kind.Kind = "Pod" ∧
              (sampleRequest "unsupported kind" "Pod" "v1" [1]).Kind.Version = "v1")) := by
  refine ⟨⟨{ UID := "705ab4f5-6393-11e8-b7cc-42010a800002", Allowed := false, Result := none },
    some ("User \"unsupported kind\" does not have access to the secret " ++
        "\"db-creds\" in the namespace \"prod\"."),
    [.inClusterConfig, .newForConfig,
      .create (mkSar (sampleRequest "unsupported kind" "Pod" "v1" [1]) "db-creds")
        (.status false)], 1⟩, rfl, by decide, rfl, ?_⟩
  intro h
  exact h.mp ⟨_, rfl, by decide⟩ ⟨rfl, rfl⟩

/-- C9 (amended): for a non-exempt user and an available cluster client,
`validateSecretAccess` fails with the unsupported-kind error (the text
`getting secrets: unsupported kind received: ` followed by the `%#v` form of the
kind, which contains `unsupported kind`) exactly when it is not the case that
`Kind` is `Pod` and `Version` is `v1`, whatever the group; it then returns
`Allowed = false` under the UID of the request, having issued no oracle query. -/
theorem C9_kind_dispatch {σ : Type} (env : Env σ) (s : σ) (r : AdmissionReview)
    (req : AdmissionRequest) (cfg : Unit) (cs : Clientset σ)
    (hr : r.Request = some req)
    (hne : isControllerUser req.UserInfo.Username = false)
    (hcfg : env.inClusterConfig = .ok cfg) (hcs : env.newForConfig = .ok cs) :
    ((∃ run, validateSecretAccess env s r = some run ∧
        run.err = some (unsupportedKindError env.isPrintTable req.Kind)) ↔
      ¬ (req.Kind.Kind = "Pod" ∧ req.Kind.Version = "v1")) ∧
    "unsupported kind".data <:+: (unsupportedKindError env.isPrintTable req.Kind).data ∧
    (¬ (req.Kind.Kind = "Pod" ∧ req.Kind.Version = "v1") →
      validateSecretAccess env s r =
        some ⟨{ UID := req.UID, Allowed := false, Result := none },
          some (unsupportedKindError env.isPrintTable req.Kind),
          [.inClusterConfig, .newForConfig], s⟩) ∧
    (∀ run, validateSecretAccess env s r = some run →
      run.err = some (unsupportedKindError env.isPrintTable req.Kind) →
      run.resp.Allowed = false ∧ oracleQueries run.calls = []) := by
  have hunsupported : ¬ (req.Kind.Kind = "Pod" ∧ req.Kind.Version = "v1") →
      validateSecretAccess env s r =
        some ⟨{ UID := req.UID, Allowed := false, Result := none },
          some (unsupportedKindError env.isPrintTable req.Kind),
          [.inClusterConfig, .newForConfig], s⟩ := by
    intro hk
    simp [validateSecretAccess, hr, hne, hcfg, hcs, getSecret, hk, unsupportedKindError]
  have hpod : req.Kind.Kind = "Pod" ∧ req.Kind.Version = "v1" → ∀ run,
      validateSecretAccess env s r = some run →
      run.err ≠ some (unsupportedKindError env.isPrintTable req.Kind) := by
    intro hk run hrun herr
    simp only [validateSecretAccess, hr, hne, hcfg, hcs, getSecret, hk, and_self, if_true,
      Bool.false_eq_true, if_false] at hrun
    rcases hp : env.unmarshalPod req.Object.Raw with e | (_ | pod)
    · rw [hp] at hrun
      simp only [Option.some.injEq] at hrun
      subst hrun
      simp only [Option.some.injEq] at herr
      rw [String.append_assoc, String.append_assoc] at herr
      exact unmarshal_error_ne_unsupported _ _ _ herr
    · rw [hp] at hrun
      simp at hrun
    · rw [hp] at hrun
      simp only at hrun
      rcases hl : authLoop env.isPrintTable cs req (getSecretsFromPodSpec pod.Spec) s with
        ⟨e | e, calls, s1⟩
      · rw [hl] at hrun
        simp only [Option.some.injEq] at hrun
        subst hrun
        simp at herr
      · rw [hl] at hrun
        simp only [Option.some.injEq] at hrun
        subst hrun
        simp only [Option.some.injEq] at herr
        have hh := authLoop_err_head env.isPrintTable cs req (getSecretsFromPodSpec pod.Spec) s e
          (by rw [hl])
        rw [herr, unsupportedKindError_head] at hh
        rcases hh with hh | hh <;> exact absurd hh (by decide)
  refine ⟨⟨?_, fun hk => ⟨_, hunsupported hk, rfl⟩⟩, ?_, hunsupported, ?_⟩
  · rintro ⟨run, hrun, herr⟩ hk
    exact hpod hk run hrun herr
  · exact ⟨"getting secrets: ".data, " received: ".data ++
      (req.Kind.goSyntax env.isPrintTable).data, rfl⟩
  · intro run hrun herr
    by_cases hk : req.Kind.Kind = "Pod" ∧ req.Kind.Version = "v1"
    · exact absurd herr (hpod hk run hrun)
    · rw [hunsupported hk] at hrun
      simp only [Option.some.injEq] at hrun
      subst hrun
      exact ⟨rfl, rfl⟩

/-- Witness of C9: a ConfigMap/v1 sent by `alice`. -/
theorem C9_kind_dispatch_witness :
    isControllerUser "alice" = false ∧
      validateSecretAccess (sampleEnv (.ok ()) (sampleClient [] []) (reviewOf none)) 0
        (reviewOf (some (sampleRequest "alice" "ConfigMap" "v1" [1]))) =
      some ⟨{ UID := "705ab4f5-6393-11e8-b7cc-42010a800002", Allowed := false, Result := none },
        some ("getting secrets: unsupported kind received: " ++
          "v1.GroupVersionKind\x7bGroup:\"\", Version:\"v1\", Kind:\"ConfigMap\"\x7d"),
        [.inClusterConfig, .newForConfig], 0⟩ :=
  ⟨by decide,
    (C9_kind_dispatch (sampleEnv (.ok ()) (sampleClient [] []) (reviewOf none)) 0
      (reviewOf (some (sampleRequest "alice" "ConfigMap" "v1" [1])))
      (sampleRequest "alice" "ConfigMap" "v1" [1]) () (sampleClient [] [])
      rfl (by decide) rfl rfl).2.2.1 (by decide)⟩


/-! ## The loop against the answers of the oracle -/

theorem authLoop_none_iff_answers {σ : Type} (tbl : Char → Bool) (cs : Clientset σ)
    (req : AdmissionRequest) (secrets : List String) (s : σ) :
    (authLoop tbl cs req secrets s).1 = none ↔
      ∀ a ∈ oracleAnswers cs s (secrets.map (mkSar req)), a = .status true := by
  induction secrets generalizing s with
  | nil => simp [authLoop, oracleAnswers]
  | cons x xs ih =>
    rcases hc : cs.create s (mkSar req x) with ⟨a, s1⟩
    rcases a with e | b
    · rw [authLoop_cons_failed tbl cs req x xs s s1 e hc]
      simp [oracleAnswers, hc]
    · cases b
      · rw [authLoop_cons_denied tbl cs req x xs s s1 hc]
        simp [oracleAnswers, hc]
      · rw [authLoop_cons_allowed tbl cs req x xs s s1 hc]
        simp [oracleAnswers, hc, ih s1]

theorem authLoop_calls_log {σ : Type} (tbl : Char → Bool) (cs : Clientset σ)
    (req : AdmissionRequest) (secrets : List String) (s : σ) :
    ∃ n, n ≤ secrets.length ∧
      (authLoop tbl cs req secrets s).2.1 =
        List.zipWith Call.create ((secrets.take n).map (mkSar req))
          (oracleAnswers cs s ((secrets.take n).map (mkSar req))) ∧
      ((authLoop tbl cs req secrets s).1 = none → n = secrets.length) := by
  induction secrets generalizing s with
  | nil => exact ⟨0, Nat.le_refl _, rfl, fun _ => rfl⟩
  | cons x xs ih =>
    rcases hc : cs.create s (mkSar req x) with ⟨a, s1⟩
    rcases a with e | b
    · rw [authLoop_cons_failed tbl cs req x xs s s1 e hc]
      exact ⟨1, by simp, by simp [oracleAnswers, hc], by simp⟩
    · cases b
      · rw [authLoop_cons_denied tbl cs req x xs s s1 hc]
        exact ⟨1, by simp, by simp [oracleAnswers, hc], by simp⟩
      · rw [authLoop_cons_allowed tbl cs req x xs s s1 hc]
        obtain ⟨n, hn, hlog, hend⟩ := ih s1
        refine ⟨n + 1, by simpa using hn, ?_, ?_⟩
        · simp only [List.take_succ_cons, List.map_cons, oracleAnswers, hc, List.zipWith_cons_cons]
          rw [← hlog]
        · intro h
          simp only at h
          simp [hend h]

theorem validateSecretAccess_loop {σ : Type} (env : Env σ) (s : σ) (r : AdmissionReview)
    (req : AdmissionRequest) (cfg : Unit) (cs : Clientset σ) (pod : Pod)
    (hr : r.Request = some req)
    (hne : isControllerUser req.UserInfo.Username = false)
    (hcfg : env.inClusterConfig = .ok cfg) (hcs : env.newForConfig = .ok cs)
    (hkind : req.Kind.Kind = "Pod") (hver : req.Kind.Version = "v1")
    (hpod : env.unmarshalPod req.Object.Raw = .ok (some pod)) :
    validateSecretAccess env s r =
      some ⟨{ UID := req.UID,
              Allowed := (authLoop env.isPrintTable cs req (getSecretsFromPodSpec pod.Spec) s).1.isNone,
              Result := none },
        (authLoop env.isPrintTable cs req (getSecretsFromPodSpec pod.Spec) s).1,
        .inClusterConfig :: .newForConfig ::
          (authLoop env.isPrintTable cs req (getSecretsFromPodSpec pod.Spec) s).2.1,
        (authLoop env.isPrintTable cs req (getSecretsFromPodSpec pod.Spec) s).2.2⟩ := by
  rcases hl : authLoop env.isPrintTable cs req (getSecretsFromPodSpec pod.Spec) s with
    ⟨e | e, calls, s1⟩ <;>
  simp [validateSecretAccess, hr, hne, hcfg, hcs, getSecret, hkind, hver, hpod, hl]

/-- C3: for a non-exempt Pod/v1 request whose payload decodes, served by a
cluster client whose oracle answers `allowed` to the queries for the references
`s_0 .. s_(k-1)` and `denied` to the one for `s_k`, `validateSecretAccess` returns
`Allowed = false` under the UID of the request; the error is
`User "<user>" does not have access to the secret "<s_k>" in the namespace "<ns>".`
with the three names printed by `%q`, so it contains the quoted `s_k` and
namespace, and the names themselves when they are made of plain runes; the
outside calls are the two that build the client followed by exactly the queries
for `s_0, ..., s_k` in order (verb `get`, resource `secrets`, the name of the
reference, the namespace and the user of the request), the last one answered
`denied`: no query is issued for a later reference. -/
theorem C3_first_denial_wins {σ : Type} (env : Env σ) (s : σ) (r : AdmissionReview)
    (req : AdmissionRequest) (cfg : Unit) (cs : Clientset σ) (pod : Pod) (k : Nat)
    (hr : r.Request = some req)
    (hne : isControllerUser req.UserInfo.Username = false)
    (hcfg : env.inClusterConfig = .ok cfg) (hcs : env.newForConfig = .ok cs)
    (hkind : req.Kind.Kind = "Pod") (hver : req.Kind.Version = "v1")
    (hpod : env.unmarshalPod req.Object.Raw = .ok (some pod))
    (hk : k < (getSecretsFromPodSpec pod.Spec).length)
    (hans : oracleAnswers cs s (((getSecretsFromPodSpec pod.Spec).take (k + 1)).map (fun name =>
        { ResourceAttributes :=
            { Verb := "get", Resource := "secrets", Name := name, Namespace := req.Namespace },
          User := req.UserInfo.Username }))
      = List.replicate k (.status true) ++ [.status false]) :
    ∃ run msg, validateSecretAccess env s r = some run ∧
      run.resp = { UID := req.UID, Allowed := false, Result := none } ∧
      run.err = some msg ∧
      msg = "User " ++ quote env.isPrintTable req.UserInfo.Username ++
        " does not have access to the secret " ++
        quote env.isPrintTable (getSecretsFromPodSpec pod.Spec)[k] ++
        " in the namespace " ++ quote env.isPrintTable req.Namespace ++ "." ∧
      (quote env.isPrintTable (getSecretsFromPodSpec pod.Spec)[k]).data <:+: msg.data ∧
      (quote env.isPrintTable req.Namespace).data <:+: msg.data ∧
      ((∀ c ∈ (getSecretsFromPodSpec pod.Spec)[k].data, plainRune env.isPrintTable c) →
        (getSecretsFromPodSpec pod.Spec)[k].data <:+: msg.data) ∧
      ((∀ c ∈ req.Namespace.data, plainRune env.isPrintTable c) →
        req.Namespace.data <:+: msg.data) ∧
      run.calls = .inClusterConfig :: .newForConfig ::
        (((getSecretsFromPodSpec pod.Spec).take k).map (fun name => Call.create
            { ResourceAttributes :=
                { Verb := "get", Resource := "secrets", Name := name,
                  Namespace := req.Namespace },
              User := req.UserInfo.Username } (.status true)) ++
          [Call.create
            { ResourceAttributes :=
                { Verb := "get", Resource := "secrets",
                  Name := (getSecretsFromPodSpec pod.Spec)[k], Namespace := req.Namespace },
              User := req.UserInfo.Username } (.status false)]) ∧
      oracleQueries run.calls = ((getSecretsFromPodSpec pod.Spec).take (k + 1)).map (fun name =>
        { ResourceAttributes :=
            { Verb := "get", Resource := "secrets", Name := name, Namespace := req.Namespace },
          User := req.UserInfo.Username }) := by
  obtain ⟨h1, h2, h3⟩ :=
    authLoop_first_denied env.isPrintTable cs req (getSecretsFromPodSpec pod.Spec) k s hk hans
  obtain ⟨q1, q2, q3⟩ := quote_infix_denialMessage env.isPrintTable req.UserInfo.Username
    (getSecretsFromPodSpec pod.Spec)[k] req.Namespace
  refine ⟨_, _, validateSecretAccess_loop env s r req cfg cs pod hr hne hcfg hcs hkind hver hpod,
    ?_, h1, rfl, q2, q3, fun h => (infix_quote_plain _ _ h).trans q2,
    fun h => (infix_quote_plain _ _ h).trans q3, ?_, ?_⟩
  · simp [h1]
  · simp only [h3]
    rfl
  · simp only [oracleQueries, h2]
    rfl

/-- Witness of C3: `alice` may read `db-creds` and `api-keys` but not the third
reference, for which the oracle (which counts the queries) changes its mind. -/
theorem C3_first_denial_wins_witness :
    ∃ run msg, validateSecretAccess
        (sampleEnv (.ok ())
          { create := fun n _ => (.status (decide (n < 2)), n + 1) } (reviewOf none)) 0
        (reviewOf (some (sampleRequest "alice" "Pod" "v1" [1]))) = some run ∧
      run.resp = { UID := "705ab4f5-6393-11e8-b7cc-42010a800002", Allowed := false,
                   Result := none } ∧
      run.err = some msg ∧
      msg = "User \"alice\" does not have access to the secret \"db-creds\" in the " ++
        "namespace \"prod\"." ∧
      "db-creds".data <:+: msg.data ∧ "prod".data <:+: msg.data ∧
      run.calls = [.inClusterConfig, .newForConfig,
        Call.create
          { ResourceAttributes :=
              { Verb := "get", Resource := "secrets", Name := "db-creds", Namespace := "prod" },
            User := "alice" } (.status true),
        Call.create
          { ResourceAttributes :=
              { Verb := "get", Resource := "secrets", Name := "api-keys", Namespace := "prod" },
            User := "alice" } (.status true),
        Call.create
          { ResourceAttributes :=
              { Verb := "get", Resource := "secrets", Name := "db-creds", Namespace := "prod" },
            User := "alice" } (.status false)] := by
  obtain ⟨run, msg, h1, h2, h3, h4, _, _, h7, h8, h9, _⟩ := C3_first_denial_wins
    (sampleEnv (.ok ()) { create := fun n _ => (.status (decide (n < 2)), n + 1) } (reviewOf none))
    0 (reviewOf (some (sampleRequest "alice" "Pod" "v1" [1])))
    (sampleRequest "alice" "Pod" "v1" [1]) () _ samplePod 2
    rfl (by decide) rfl rfl rfl rfl rfl (by decide) (by decide)
  exact ⟨run, msg, h1, h2, h3, h4, h7 (by decide), h8 (by decide), h9⟩


/-- C1 (amended): for every request whose payload does not decode to a nil pod,
`validateSecretAccess` returns a verdict, and `Allowed = true` exactly when the
user is exempt, or the cluster client could be built, the kind is Pod/v1, the
payload decodes to a pod and the oracle answers `allowed`, without transport
error, to the queries for the secret references extracted from that pod, asked
in extraction order (verb `get`, resource `secrets`, the name of the reference,
the namespace and the user of the request).  On that path the oracle calls made
are a prefix of those queries, each logged with the answer the oracle gave, and
all of them when the verdict is an allow; equivalently `Allowed = true` exactly
when the user is exempt or every query issued was answered `allowed`.
`Allowed = true` comes with a nil error and `Allowed = false` with a non-nil
one; a transport error on any query gives `Allowed = false`. -/
theorem C1_fail_closed {σ : Type} (env : Env σ) (s : σ) (r : AdmissionReview)
    (req : AdmissionRequest) (hr : r.Request = some req)
    (hpod : env.unmarshalPod req.Object.Raw ≠ .ok none) :
    ∃ run, validateSecretAccess env s r = some run ∧
      (run.resp.Allowed = true ↔
        (isControllerUser req.UserInfo.Username = true ∨
          ∃ cfg cs pod, env.inClusterConfig = .ok cfg ∧ env.newForConfig = .ok cs ∧
            req.Kind.Kind = "Pod" ∧ req.Kind.Version = "v1" ∧
            env.unmarshalPod req.Object.Raw = .ok (some pod) ∧
            ∀ a ∈ oracleAnswers cs s ((getSecretsFromPodSpec pod.Spec).map (fun name =>
                { ResourceAttributes :=
                    { Verb := "get", Resource := "secrets", Name := name,
                      Namespace := req.Namespace },
                  User := req.UserInfo.Username })),
              a = .status true)) ∧
      (∀ cfg cs pod, isControllerUser req.UserInfo.Username = false →
        env.inClusterConfig = .ok cfg → env.newForConfig = .ok cs →
        req.Kind.Kind = "Pod" → req.Kind.Version = "v1" →
        env.unmarshalPod req.Object.Raw = .ok (some pod) →
        ∃ n, n ≤ (getSecretsFromPodSpec pod.Spec).length ∧
          run.calls = .inClusterConfig :: .newForConfig ::
            List.zipWith Call.create
              (((getSecretsFromPodSpec pod.Spec).take n).map (fun name =>
                { ResourceAttributes :=
                    { Verb := "get", Resource := "secrets", Name := name,
                      Namespace := req.Namespace },
                  User := req.UserInfo.Username }))
              (oracleAnswers cs s (((getSecretsFromPodSpec pod.Spec).take n).map (fun name =>
                { ResourceAttributes :=
                    { Verb := "get", Resource := "secrets", Name := name,
                      Namespace := req.Namespace },
                  User := req.UserInfo.Username }))) ∧
          (run.resp.Allowed = true → n = (getSecretsFromPodSpec pod.Spec).length)) ∧
      (run.resp.Allowed = true ↔
        (isControllerUser req.UserInfo.Username = true ∨
          (clientAvailable env ∧ checksPassed env req run.calls))) ∧
      (run.resp.Allowed = true → run.err = none) ∧
      (run.resp.Allowed = false → run.err ≠ none) ∧
      (∀ q e, Call.create q (.failed e) ∈ run.calls →
        run.resp.Allowed = false ∧ run.err ≠ none) := by
  obtain ⟨run, hrun, hlogiff, h3, h4, h5⟩ := validateSecretAccess_verdict_log env s r req hr hpod
  refine ⟨run, hrun, ?_, ?_, hlogiff, h3, h4, h5⟩
  · constructor
    · intro hallow
      rcases hlogiff.mp hallow with hex | ⟨⟨⟨cfg, hcfg⟩, ⟨cs, hcs⟩⟩, hkind, hver, ⟨pod, hp⟩, _⟩
      · exact Or.inl hex
      · cases hne : isControllerUser req.UserInfo.Username
        · refine Or.inr ⟨cfg, cs, pod, hcfg, hcs, hkind, hver, hp, ?_⟩
          have hloop := validateSecretAccess_loop env s r req cfg cs pod hr hne hcfg hcs hkind
            hver hp
          rw [hrun] at hloop
          simp only [Option.some.injEq] at hloop
          subst hloop
          simp only [Option.isNone_iff_eq_none] at hallow
          exact (authLoop_none_iff_answers env.isPrintTable cs req
            (getSecretsFromPodSpec pod.Spec) s).mp hallow
        · exact Or.inl rfl
    · rintro (hex | ⟨cfg, cs, pod, hcfg, hcs, hkind, hver, hp, hans⟩)
      · exact hlogiff.mpr (Or.inl hex)
      · cases hne : isControllerUser req.UserInfo.Username
        · have hloop := validateSecretAccess_loop env s r req cfg cs pod hr hne hcfg hcs hkind
            hver hp
          rw [hrun] at hloop
          simp only [Option.some.injEq] at hloop
          subst hloop
          simp only [Option.isNone_iff_eq_none]
          exact (authLoop_none_iff_answers env.isPrintTable cs req
            (getSecretsFromPodSpec pod.Spec) s).mpr hans
        · exact hlogiff.mpr (Or.inl hne)
  · intro cfg cs pod hne hcfg hcs hkind hver hp
    have hloop := validateSecretAccess_loop env s r req cfg cs pod hr hne hcfg hcs hkind hver hp
    rw [hrun] at hloop
    simp only [Option.some.injEq] at hloop
    subst hloop
    obtain ⟨n, hn, hlog, hend⟩ := authLoop_calls_log env.isPrintTable cs req
      (getSecretsFromPodSpec pod.Spec) s
    refine ⟨n, hn, ?_, ?_⟩
    · simp only [hlog]
      rfl
    · intro hallow
      simp only [Option.isNone_iff_eq_none] at hallow
      exact hend hallow


/-- Witness of C1: `alice` asks for `samplePod`; the oracle cannot be reached
for `api-keys`. -/
theorem C1_fail_closed_witness :
    (reviewOf (some (sampleRequest "alice" "Pod" "v1" [1]))).Request =
        some (sampleRequest "alice" "Pod" "v1" [1]) ∧
      (sampleEnv (.ok ()) (sampleClient [] ["api-keys"]) (reviewOf none)).unmarshalPod
        (sampleRequest "alice" "Pod" "v1" [1]).Object.Raw ≠ .ok none ∧
      ∃ run, validateSecretAccess
          (sampleEnv (.ok ()) (sampleClient [] ["api-keys"]) (reviewOf none)) 0
          (reviewOf (some (sampleRequest "alice" "Pod" "v1" [1]))) = some run ∧
        (run.resp.Allowed = true ↔
          (isControllerUser "alice" = true ∨
            ∃ cfg cs pod,
              (sampleEnv (.ok ()) (sampleClient [] ["api-keys"]) (reviewOf none)).inClusterConfig
                = .ok cfg ∧
              (sampleEnv (.ok ()) (sampleClient [] ["api-keys"]) (reviewOf none)).newForConfig
                = .ok cs ∧
              (sampleRequest "alice" "Pod" "v1" [1]).Kind.Kind = "Pod" ∧
              (sampleRequest "alice" "Pod" "v1" [1]).Kind.Version = "v1" ∧
              (sampleEnv (.ok ()) (sampleClient [] ["api-keys"]) (reviewOf none)).unmarshalPod
                [1] = .ok (some pod) ∧
              ∀ a ∈ oracleAnswers cs 0 ((getSecretsFromPodSpec pod.Spec).map (fun name =>
                  { ResourceAttributes :=
                      { Verb := "get", Resource := "secrets", Name := name,
                        Namespace := "prod" },
                    User := "alice" })),
                a = .status true)) ∧
        (run.resp.Allowed = true → run.err = none) ∧
        (run.resp.Allowed = false → run.err ≠ none) ∧
        (∀ q e, Call.create q (.failed e) ∈ run.calls →
          run.resp.Allowed = false ∧ run.err ≠ none) := by
  obtain ⟨run, h1, h2, _, _, h5, h6, h7⟩ :=
    C1_fail_closed (sampleEnv (.ok ()) (sampleClient [] ["api-keys"]) (reviewOf none)) 0
      (reviewOf (some (sampleRequest "alice" "Pod" "v1" [1])))
      (sampleRequest "alice" "Pod" "v1" [1]) rfl (by simp [sampleEnv, sampleRequest])
  exact ⟨rfl, by simp [sampleEnv, sampleRequest], run, h1, h2, h5, h6, h7⟩

end Webhook
